import Mathlib

/-!
# estafette-docker-cache-heater: shallow embedding and verification

This file embeds the behaviour of the `estafette-docker-cache-heater`
repository (Go) in Lean 4 and proves properties of the embedding.

The repository contains two variants of `main`:
* the *prune* variant (`main.go`): the scheduler loop pulls all listed
  images in parallel, joins on a wait group, then runs a single
  `docker system prune --all --force`;
* the *secondary* variant (the unnamed main file): each per-image goroutine
  pulls the image and then removes it with `docker rmi`; no prune runs.

External effects (running a subprocess, `os.Stat`, HTTP GET, the random
source) are modelled as explicit oracle parameters, so every definition is
an executable function of the oracles.
-/

/-- Oracle for running an external command: `env command args` is `none`
when the subprocess exits successfully and `some msg` when it fails with
error `msg` (the `error` returned by `exec.Cmd.Run`). -/
def ExecEnv : Type := String → List String → Option String

/-- An executed external command: the binary name and its arguments. -/
abbrev Cmd := String × List String

/-- `runCommandExtended` (main.go): logs, runs `command args...` and
returns the subprocess error.  The embedding also returns the list of
commands executed (here always the singleton). -/
def runCommandExtended (env : ExecEnv) (command : String) (args : List String) :
    Option String × List Cmd :=
  (env command args, [(command, args)])

/-- `dockerRunnerImpl.runDockerPull` (dockerRunner.go): runs
`docker pull <image>`, logs a warning when the command failed, and returns
the error.  Components: (returned error, executed commands, warning logged). -/
def runDockerPull (env : ExecEnv) (containerImage : String) :
    Option String × List Cmd × Bool :=
  let pullArgs := ["pull", containerImage]
  let r := runCommandExtended env "docker" pullArgs
  (r.1, r.2, r.1.isSome)

/-- `dockerRunnerImpl.runDockerRemoveImage` (dockerRunner.go): runs
`docker rmi <image>`, logs a warning on failure, returns the error. -/
def runDockerRemoveImage (env : ExecEnv) (containerImage : String) :
    Option String × List Cmd × Bool :=
  let rmiArgs := ["rmi", containerImage]
  let r := runCommandExtended env "docker" rmiArgs
  (r.1, r.2, r.1.isSome)

/-- `dockerRunnerImpl.runDockerSystemPrune` (dockerRunner.go): runs
`docker system prune --all --force`, logs a warning on failure, returns
the error. -/
def runDockerSystemPrune (env : ExecEnv) :
    Option String × List Cmd × Bool :=
  let pruneArgs := ["system", "prune", "--all", "--force"]
  let r := runCommandExtended env "docker" pruneArgs
  (r.1, r.2, r.1.isSome)

/-- The `dockerd` argument list built by `startDockerDaemon`
(dockerRunner.go): fixed arguments plus, when a registry mirror is
configured, `--registry-mirror=<mirror>`. -/
def dockerdArgs (mtu registryMirror : String) : List String :=
  let args := ["--host=unix:///var/run/docker.sock", "--mtu=" ++ mtu,
    "--host=tcp://0.0.0.0:2375", "--storage-driver=overlay2",
    "--max-concurrent-downloads=10"]
  if registryMirror = "" then args else args ++ ["--registry-mirror=" ++ registryMirror]

/-- `applyJitter` (main.go):
```
deviation := int(0.25 * float64(input))
return input - deviation + r.Intn(2*deviation)
```
`0.25 * float64 input` is exact scaling by a power of two and `float64 input`
is exact for the inputs the program uses (all below `2^53`), so the Go
conversion `int(0.25 * float64 input)` truncates to `input / 4`.
`r.Intn bound` panics when `bound ≤ 0` (modelled as `none`) and otherwise
yields a value in `[0, bound)`; the random draw is modelled by the
parameter `rand`, reduced mod the bound. -/
def applyJitter (input rand : Nat) : Option Nat :=
  let deviation := input / 4
  if 2 * deviation = 0 then none
  else some (input - deviation + rand % (2 * deviation))

/-- `sleepWithJitter` (main.go): sleeps `applyJitter input` seconds.
The embedding returns the number of seconds slept (`none` on panic). -/
def sleepWithJitter (input rand : Nat) : Option Nat :=
  applyJitter input rand

/-- The base values passed to `sleepWithJitter` at every call site of the
program: `10` in the readiness waits before the scheduler loop starts
(registry-health loop in the prune variant, alpine-pull loop in the
secondary variant) and `900` at the three call sites inside the loop. -/
def sleepWithJitterCallBases : List Nat := [10, 900]

/-! ## The scheduler loop

One iteration of the infinite `for` loop inside the `go func` of `main`.
Reading the container-list file and strict YAML unmarshaling are external
effects; their outcome for the iteration is a `ConfigResult`. -/

/-- Outcome of `ioutil.ReadFile` followed by `yaml.UnmarshalStrict` for one
iteration of the scheduler loop. -/
inductive ConfigResult
  | readError (e : String)
  | unmarshalError (e : String)
  | ok (containers : List String)
deriving DecidableEq

/-- What one iteration of the scheduler loop does:
`warned` — a warning was logged for a config failure;
`goroutines` — the bodies of the goroutines launched for this cycle, one
per listed container, each body a sequential list of commands;
`afterJoin` — commands executed after `wg.Wait()` returns;
`sleepBase` — the base passed to `sleepWithJitter` at the end of the
iteration. -/
structure Iteration where
  warned : Bool
  goroutines : List (List Cmd)
  afterJoin : List Cmd
  sleepBase : Nat
deriving DecidableEq

/-- Body of the per-container goroutine in the prune variant (main.go):
```
go func(container string) {
    defer wg.Done()
    dockerRunner.runDockerPull(container)
}(c)
```
the error returned by `runDockerPull` is discarded. -/
def pruneGoroutineBody (env : ExecEnv) (container : String) : List Cmd :=
  (runDockerPull env container).2.1

/-- Body of the per-container goroutine in the secondary variant: the pull,
its returned error discarded, then `runDockerRemoveImage` on the same
container. -/
def secondaryGoroutineBody (env : ExecEnv) (container : String) : List Cmd :=
  (runDockerPull env container).2.1 ++ (runDockerRemoveImage env container).2.1

/-- One iteration of the scheduler loop in the prune variant (main.go):
on a read or unmarshal failure, log a warning and sleep jittered 900;
otherwise launch one pull goroutine per container, join, run the system
prune, and sleep jittered 900. -/
def iterationPrune (env : ExecEnv) (cfg : ConfigResult) : Iteration :=
  match cfg with
  | .readError _ => ⟨true, [], [], 900⟩
  | .unmarshalError _ => ⟨true, [], [], 900⟩
  | .ok cs => ⟨false, cs.map (pruneGoroutineBody env), (runDockerSystemPrune env).2.1, 900⟩

/-- One iteration of the scheduler loop in the secondary variant: as in the
prune variant, but each goroutine also removes its image and nothing runs
after the join. -/
def iterationSecondary (env : ExecEnv) (cfg : ConfigResult) : Iteration :=
  match cfg with
  | .readError _ => ⟨true, [], [], 900⟩
  | .unmarshalError _ => ⟨true, [], [], 900⟩
  | .ok cs => ⟨false, cs.map (secondaryGoroutineBody env), [], 900⟩

/-! ## Interleavings of the concurrent goroutines

The goroutines of one cycle run concurrently; the commands the cycle as a
whole issues before the `wg.Wait()` join form an arbitrary interleaving of
the sequential goroutine bodies.  `Shuffle gss t` holds when `t` is such an
interleaving of the bodies `gss`. -/

/-- `Shuffle gss t`: `t` is obtained by repeatedly removing the head of one
of the lists in `gss`; i.e. `t` is an interleaving of the lists `gss` that
preserves the order within each list. -/
inductive Shuffle {α : Type} : List (List α) → List α → Prop
  | done (gss : List (List α)) (h : ∀ gs ∈ gss, gs = []) : Shuffle gss []
  | step (gss : List (List α)) (i : Nat) (hi : i < gss.length) (x : α)
      (rest t : List α) (hget : gss[i] = x :: rest)
      (htail : Shuffle (gss.set i rest) t) : Shuffle gss (x :: t)

/-- Every list of a shuffle is a sublist of the interleaving: the order of
commands within one goroutine's body is preserved in the cycle's trace. -/
theorem Shuffle.sublist_of_getElem {α : Type} {gss : List (List α)} {t : List α}
    (h : Shuffle gss t) : ∀ k, (hk : k < gss.length) → gss[k].Sublist t := by
  induction h with
  | done gss h =>
    intro k hk
    rw [h _ (gss.getElem_mem hk)]
  | step gss i hi x rest t hget htail ih =>
    intro k hk
    by_cases hik : i = k
    · subst hik
      rw [hget]
      have := ih i (by simp [hi])
      rw [List.getElem_set_self (by simp [hi])] at this
      exact this.cons₂ x
    · have := ih k (by simp [hk])
      rw [List.getElem_set_ne hik (by simp [hk])] at this
      exact this.cons x

/-- Membership version of `Shuffle.sublist_of_getElem`. -/
theorem Shuffle.sublist_of_mem {α : Type} {gss : List (List α)} {t gs : List α}
    (h : Shuffle gss t) (hgs : gs ∈ gss) : gs.Sublist t := by
  obtain ⟨k, hk, rfl⟩ := List.mem_iff_getElem.mp hgs
  exact h.sublist_of_getElem k hk

/-- Every element of an interleaving comes from one of the goroutine
bodies. -/
theorem Shuffle.mem {α : Type} {gss : List (List α)} {t : List α}
    (h : Shuffle gss t) : ∀ c ∈ t, ∃ gs ∈ gss, c ∈ gs := by
  induction h with
  | done gss h => intro c hc; cases hc
  | step gss i hi x rest t hget htail ih =>
    intro c hc
    rcases List.mem_cons.mp hc with rfl | hc
    · exact ⟨gss[i], gss.getElem_mem hi, hget ▸ List.mem_cons_self _ _⟩
    · obtain ⟨gs, hgs, hcgs⟩ := ih c hc
      rcases List.mem_or_eq_of_mem_set hgs with hgs' | rfl
      · exact ⟨gs, hgs', hcgs⟩
      · exact ⟨gss[i], gss.getElem_mem hi, hget ▸ List.mem_cons_of_mem _ hcgs⟩

/-! ## Claims C1 and C9: the jitter helper -/

/-- **C1.** For every input `n ≥ 4`, `applyJitter n` returns a value within
±25% of `n`: with `d = n / 4` (the truncation of `0.25 * n`), the result
lies in `[n - d, n + d - 1]`; for the scheduler's base interval of 900
seconds the jittered sleep is between 675 and 1124 seconds. -/
theorem C1_applyJitter_range (n rand : Nat) (h4 : 4 ≤ n)
    (hr : rand < 2 * (n / 4)) :
    applyJitter n rand = some (n - n / 4 + rand) ∧
    n - n / 4 ≤ n - n / 4 + rand ∧
    n - n / 4 + rand ≤ n + n / 4 - 1 ∧
    (∀ r v, applyJitter 900 r = some v → 675 ≤ v ∧ v ≤ 1124) := by
  refine ⟨?_, Nat.le_add_right _ _, by omega, ?_⟩
  · simp only [applyJitter]
    rw [if_neg (by omega), Nat.mod_eq_of_lt hr]
  · intro r v h
    simp only [applyJitter, show (900 : Nat) / 4 = 225 from rfl] at h
    rw [if_neg (by omega)] at h
    have hv := Option.some.inj h
    have : r % 450 < 450 := Nat.mod_lt _ (by omega)
    omega

/-- Witness for C1 at the concrete scheduler input 900 with random draw 17. -/
theorem C1_applyJitter_range_witness :
    applyJitter 900 17 = some 692 ∧ 675 ≤ 692 ∧ 692 ≤ 1124 := by
  have h := C1_applyJitter_range 900 17 (by omega) (by omega)
  exact ⟨h.1, by omega, by omega⟩

/-- **C9.** `applyJitter` is partial: for every input `n ≤ 3` the deviation
`n / 4` is `0` and `r.Intn (2*deviation)` panics, so `applyJitter` (hence
`sleepWithJitter`) is total only under the precondition `input ≥ 4`; every
call site of the program passes 10 or 900, which satisfy it. -/
theorem C9_applyJitter_needs_input_ge_four :
    (∀ input rand, input ≤ 3 → applyJitter input rand = none) ∧
    (∀ input rand, input ≤ 3 → sleepWithJitter input rand = none) ∧
    (∀ input rand, 4 ≤ input → (applyJitter input rand).isSome = true) ∧
    (∀ b ∈ sleepWithJitterCallBases, 4 ≤ b) ∧
    (∀ env cfg, (iterationPrune env cfg).sleepBase ∈ sleepWithJitterCallBases ∧
      (iterationSecondary env cfg).sleepBase ∈ sleepWithJitterCallBases) := by
  refine ⟨?_, ?_, ?_, ?_, ?_⟩
  · intro input rand h
    have hd : input / 4 = 0 := by omega
    simp [applyJitter, hd]
  · intro input rand h
    have hd : input / 4 = 0 := by omega
    simp [sleepWithJitter, applyJitter, hd]
  · intro input rand h
    have hd : 1 ≤ input / 4 := by omega
    simp only [applyJitter]
    rw [if_neg (by omega)]
    rfl
  · intro b hb
    simp only [sleepWithJitterCallBases, List.mem_cons, List.mem_singleton] at hb
    rcases hb with h | h | h <;> first | omega | cases h
  · intro env cfg
    cases cfg <;> simp [iterationPrune, iterationSecondary, sleepWithJitterCallBases]

/-- Witness for C9 at the concrete inputs 3 (panics) and 900 (total). -/
theorem C9_applyJitter_needs_input_ge_four_witness :
    applyJitter 3 0 = none ∧ (applyJitter 900 0).isSome = true ∧
    900 ∈ sleepWithJitterCallBases := by
  refine ⟨C9_applyJitter_needs_input_ge_four.1 3 0 (by omega),
    C9_applyJitter_needs_input_ge_four.2.2.1 900 0 (by omega), by decide⟩

/-! ## Claims C2 to C7: the scheduler loop -/

/-- The single prune command of the prune variant. -/
def pruneCmd : Cmd := ("docker", ["system", "prune", "--all", "--force"])

/-- A concrete environment in which `docker pull busybox` fails and every
other command succeeds. -/
def envPullFails : ExecEnv :=
  fun _ args => if args = ["pull", "busybox"] then some "exit status 1" else none

/-- **C2, counterexample.** The claim "the number of concurrently running
pull operations is bounded by a fixed constant independent of the length of
the container list" is false: the loop launches one pull goroutine per
listed container, so no constant bounds the fan-out over all lists. -/
theorem C2_unbounded_counterexample :
    ¬ ∃ K : Nat, ∀ (env : ExecEnv) (cs : List String),
        ((iterationPrune env (ConfigResult.ok cs)).goroutines).length ≤ K := by
  rintro ⟨K, h⟩
  have hK := h (fun _ _ => none) (List.replicate (K + 1) "alpine")
  simp only [iterationPrune, List.length_map, List.length_replicate] at hK
  omega

/-- **C2, amended.** Each refresh cycle launches exactly one pull goroutine
per listed container image (in both variants), so the number of
concurrently running pull operations equals the container-list length and
grows with it; the only fixed concurrency bound lives inside the docker
daemon, which is started with `--max-concurrent-downloads=10`. -/
theorem C2_amended_goroutine_per_item (env : ExecEnv) (cs : List String)
    (mtu registryMirror : String) :
    ((iterationPrune env (ConfigResult.ok cs)).goroutines).length = cs.length ∧
    ((iterationSecondary env (ConfigResult.ok cs)).goroutines).length = cs.length ∧
    "--max-concurrent-downloads=10" ∈ dockerdArgs mtu registryMirror := by
  refine ⟨by simp [iterationPrune], by simp [iterationSecondary], ?_⟩
  unfold dockerdArgs
  by_cases h : registryMirror = "" <;> simp [h]

/-- **C3.** A failed pull is logged and ignored: when the pull command for
a listed container fails, `runDockerPull` returns that error and logs a
warning, but the cycle still schedules every goroutine, the follow-up
actions (prune in the prune variant) still run, in the secondary variant
the removal command still runs after the failed pull, and the loop sleeps
the usual 900-second base and proceeds. -/
theorem C3_failed_pull_ignored (env : ExecEnv) (cs : List String) (c e : String)
    (hc : c ∈ cs) (he : env "docker" ["pull", c] = some e) :
    (runDockerPull env c).1 = some e ∧
    (runDockerPull env c).2.2 = true ∧
    (iterationPrune env (ConfigResult.ok cs)).goroutines = cs.map (pruneGoroutineBody env) ∧
    pruneGoroutineBody env c ∈ (iterationPrune env (ConfigResult.ok cs)).goroutines ∧
    (iterationPrune env (ConfigResult.ok cs)).afterJoin = [pruneCmd] ∧
    secondaryGoroutineBody env c = [("docker", ["pull", c]), ("docker", ["rmi", c])] ∧
    secondaryGoroutineBody env c ∈ (iterationSecondary env (ConfigResult.ok cs)).goroutines ∧
    (iterationPrune env (ConfigResult.ok cs)).sleepBase = 900 ∧
    (iterationSecondary env (ConfigResult.ok cs)).sleepBase = 900 := by
  refine ⟨?_, ?_, rfl, ?_, rfl, rfl, ?_, rfl, rfl⟩
  · simp [runDockerPull, runCommandExtended, he]
  · simp [runDockerPull, runCommandExtended, he]
  · exact List.mem_map_of_mem _ hc
  · exact List.mem_map_of_mem _ hc

/-- Witness for C3: a failing `docker pull busybox` in a one-element list. -/
theorem C3_failed_pull_ignored_witness :
    (runDockerPull envPullFails "busybox").1 = some "exit status 1" ∧
    (runDockerPull envPullFails "busybox").2.2 = true ∧
    (iterationPrune envPullFails (ConfigResult.ok ["busybox"])).afterJoin = [pruneCmd] ∧
    secondaryGoroutineBody envPullFails "busybox" =
      [("docker", ["pull", "busybox"]), ("docker", ["rmi", "busybox"])] := by
  have h := C3_failed_pull_ignored envPullFails ["busybox"] "busybox" "exit status 1"
    (by decide) (by decide)
  exact ⟨h.1, h.2.1, h.2.2.2.2.1, h.2.2.2.2.2.1⟩

/-- **C4.** Configuration failure leaves the docker state untouched: when
reading the container-list file or strict unmarshaling fails, the
iteration launches no goroutine and executes no command after the join; it
only logs a warning and sleeps the jittered 900-second base (both
variants). -/
theorem C4_config_failure_no_commands (env : ExecEnv) (e : String) :
    iterationPrune env (ConfigResult.readError e) = ⟨true, [], [], 900⟩ ∧
    iterationPrune env (ConfigResult.unmarshalError e) = ⟨true, [], [], 900⟩ ∧
    iterationSecondary env (ConfigResult.readError e) = ⟨true, [], [], 900⟩ ∧
    iterationSecondary env (ConfigResult.unmarshalError e) = ⟨true, [], [], 900⟩ :=
  ⟨rfl, rfl, rfl, rfl⟩

/-- **C5.** In the prune variant, each successful-configuration cycle
executes exactly one `docker system prune --all --force`, and it starts
only after every pull of the cycle has finished: in every interleaving `t`
of the goroutine bodies, all commands are pulls, and the full cycle trace
`t ++ afterJoin` contains the prune exactly once, after the join. -/
theorem C5_single_prune_after_join (env : ExecEnv) (cs : List String) (t : List Cmd)
    (h : Shuffle ((iterationPrune env (ConfigResult.ok cs)).goroutines) t) :
    (iterationPrune env (ConfigResult.ok cs)).afterJoin = [pruneCmd] ∧
    (∀ c ∈ t, ∃ img, c = ("docker", ["pull", img])) ∧
    (t ++ (iterationPrune env (ConfigResult.ok cs)).afterJoin).count pruneCmd = 1 := by
  have hmem : ∀ c ∈ t, ∃ img, c = ("docker", ["pull", img]) := by
    intro c hc
    obtain ⟨gs, hgs, hcgs⟩ := h.mem c hc
    simp only [iterationPrune, List.mem_map] at hgs
    obtain ⟨img, _, rfl⟩ := hgs
    simp only [pruneGoroutineBody, runDockerPull, runCommandExtended,
      List.mem_singleton] at hcgs
    exact ⟨img, hcgs⟩
  refine ⟨rfl, hmem, ?_⟩
  have hnot : pruneCmd ∉ t := by
    intro hp
    obtain ⟨img, heq⟩ := hmem _ hp
    simp [pruneCmd] at heq
  rw [List.count_append, List.count_eq_zero.mpr hnot]
  show 0 + List.count pruneCmd [pruneCmd] = 1
  decide

/-- Witness for C5: one listed image, the unique interleaving of its single
goroutine. -/
theorem C5_single_prune_after_join_witness :
    (iterationPrune (fun _ _ => none) (ConfigResult.ok ["alpine"])).afterJoin = [pruneCmd] ∧
    ([("docker", ["pull", "alpine"])] ++
      (iterationPrune (fun _ _ => none) (ConfigResult.ok ["alpine"])).afterJoin).count
        pruneCmd = 1 := by
  have hs : Shuffle ((iterationPrune (fun _ _ => none)
      (ConfigResult.ok ["alpine"])).goroutines) [("docker", ["pull", "alpine"])] :=
    Shuffle.step _ 0 (by decide) ("docker", ["pull", "alpine"]) [] []
      (by decide) (Shuffle.done _ (by decide))
  have h := C5_single_prune_after_join (fun _ _ => none) ["alpine"] _ hs
  exact ⟨h.1, h.2.2⟩

/-- **C6.** In the secondary variant, for every listed container the
`docker rmi` command runs after the `docker pull` for the same container
returned: in every interleaving of the cycle's goroutine bodies, the pull
of that container precedes its removal. -/
theorem C6_rmi_after_pull (env : ExecEnv) (cs : List String) (t : List Cmd)
    (h : Shuffle ((iterationSecondary env (ConfigResult.ok cs)).goroutines) t)
    (c : String) (hc : c ∈ cs) :
    [("docker", ["pull", c]), ("docker", ["rmi", c])].Sublist t := by
  have hbody : secondaryGoroutineBody env c ∈
      (iterationSecondary env (ConfigResult.ok cs)).goroutines := by
    simp only [iterationSecondary]
    exact List.mem_map_of_mem _ hc
  exact h.sublist_of_mem hbody

/-- Witness for C6: one listed image, pull then rmi in the trace. -/
theorem C6_rmi_after_pull_witness :
    [("docker", ["pull", "redis"]), ("docker", ["rmi", "redis"])].Sublist
      [("docker", ["pull", "redis"]), ("docker", ["rmi", "redis"])] := by
  have hs : Shuffle ((iterationSecondary (fun _ _ => none)
      (ConfigResult.ok ["redis"])).goroutines)
      [("docker", ["pull", "redis"]), ("docker", ["rmi", "redis"])] :=
    Shuffle.step _ 0 (by decide) ("docker", ["pull", "redis"])
      [("docker", ["rmi", "redis"])] _ (by decide)
      (Shuffle.step _ 0 (by decide) ("docker", ["rmi", "redis"]) [] []
        (by decide) (Shuffle.done _ (by decide)))
  exact C6_rmi_after_pull (fun _ _ => none) ["redis"] _ hs "redis" (by decide)

/-- **C7.** The retry interval is fixed: every sleep inside the scheduler
loop uses the base 900 seconds, whether the iteration failed at reading,
failed at unmarshaling, or succeeded, in both variants. -/
theorem C7_fixed_sleep_base (env : ExecEnv) (cfg : ConfigResult) :
    (iterationPrune env cfg).sleepBase = 900 ∧
    (iterationSecondary env cfg).sleepBase = 900 := by
  cases cfg <;> exact ⟨rfl, rfl⟩

/-! ## Claims C8 and C10: daemon readiness -/

/-- Outcome of `os.Stat "/var/run/docker.sock"`: the socket exists, the
stat failed with an `os.IsNotExist` error, or it failed with any other
error (e.g. permission denied). -/
inductive StatResult
  | sockExists
  | notExist
  | otherErr
deriving DecidableEq

/-- The polling loop of `waitForDockerDaemon` (dockerRunner.go): at poll
`i` it stats the socket; while the outcome is an `IsNotExist` error it
sleeps 1000 ms and polls again, otherwise it breaks out.  `stat` is the
oracle giving the outcome of the `i`-th stat; the result is the index of
the final poll together with the total milliseconds slept (`none` when the
fuel runs out, i.e. the loop has not yet terminated). -/
def waitLoop (stat : Nat → StatResult) : Nat → Nat → Option (Nat × Nat)
  | _, 0 => none
  | i, fuel + 1 =>
    match stat i with
    | .notExist => (waitLoop stat (i + 1) fuel).map (fun p => (p.1, p.2 + 1000))
    | .sockExists => some (i, 0)
    | .otherErr => some (i, 0)

/-- `dockerRunnerImpl.waitForDockerDaemon` (dockerRunner.go): poll from
index 0. -/
def waitForDockerDaemon (stat : Nat → StatResult) (fuel : Nat) : Option (Nat × Nat) :=
  waitLoop stat 0 fuel

/-- Characterisation of the polling loop: it returns at the first poll
whose stat outcome is not an `IsNotExist` error, having slept 1000 ms per
preceding failed poll. -/
theorem waitLoop_spec (stat : Nat → StatResult) :
    ∀ fuel i n ms, waitLoop stat i fuel = some (n, ms) →
      i ≤ n ∧ stat n ≠ StatResult.notExist ∧
      (∀ k, i ≤ k → k < n → stat k = StatResult.notExist) ∧ ms = 1000 * (n - i) := by
  intro fuel
  induction fuel with
  | zero => intro i n ms h; cases h
  | succ fuel ih =>
    intro i n ms h
    cases hstat : stat i
    case sockExists =>
      simp only [waitLoop, hstat, Option.some.injEq, Prod.mk.injEq] at h
      obtain ⟨rfl, rfl⟩ := h
      refine ⟨Nat.le_refl _, (by rw [hstat]; intro hx; cases hx), ?_, (by omega)⟩
      intro k hik hki
      exact absurd hki (by omega)
    case otherErr =>
      simp only [waitLoop, hstat, Option.some.injEq, Prod.mk.injEq] at h
      obtain ⟨rfl, rfl⟩ := h
      refine ⟨Nat.le_refl _, (by rw [hstat]; intro hx; cases hx), ?_, (by omega)⟩
      intro k hik hki
      exact absurd hki (by omega)
    case notExist =>
      simp only [waitLoop, hstat] at h
      rcases Option.map_eq_some'.mp h with ⟨⟨n', ms'⟩, hw, hp⟩
      simp only [Prod.mk.injEq] at hp
      obtain ⟨rfl, rfl⟩ := hp
      obtain ⟨hin, hne, hall, hms⟩ := ih (i + 1) n' ms' hw
      refine ⟨by omega, hne, ?_, by omega⟩
      intro k hik hkn
      rcases Nat.eq_or_lt_of_le hik with rfl | hlt
      · exact hstat
      · exact hall k hlt hkn

/-- The registry-health polling loop of the prune variant's `main`: attempt
`i` performs an HTTP GET on the health endpoint (`get i = none` when the
request errors, `some s` when it answers with status `s`); the loop breaks
when the request succeeded with status 200, otherwise it sleeps jittered
base 10 and retries.  Returns the index of the successful attempt and the
number of jittered sleeps performed. -/
def healthLoop (get : Nat → Option Nat) : Nat → Nat → Option (Nat × Nat)
  | _, 0 => none
  | i, fuel + 1 =>
    if get i = some 200 then some (i, 0)
    else (healthLoop get (i + 1) fuel).map (fun p => (p.1, p.2 + 1))

/-- Characterisation of the health loop: it returns at the first attempt
answered with status 200. -/
theorem healthLoop_spec (get : Nat → Option Nat) :
    ∀ fuel i n s, healthLoop get i fuel = some (n, s) →
      i ≤ n ∧ get n = some 200 ∧ (∀ k, i ≤ k → k < n → get k ≠ some 200) := by
  intro fuel
  induction fuel with
  | zero => intro i n s h; cases h
  | succ fuel ih =>
    intro i n s h
    rw [healthLoop] at h
    by_cases hg : get i = some 200
    · rw [if_pos hg] at h
      simp only [Option.some.injEq, Prod.mk.injEq] at h
      obtain ⟨rfl, rfl⟩ := h
      refine ⟨Nat.le_refl _, hg, ?_⟩
      intro k hik hki
      exact absurd hki (by omega)
    · rw [if_neg hg] at h
      rcases Option.map_eq_some'.mp h with ⟨⟨n', s'⟩, hw, hp⟩
      simp only [Prod.mk.injEq] at hp
      obtain ⟨rfl, rfl⟩ := hp
      obtain ⟨hin, h200, hall⟩ := ih (i + 1) n' s' hw
      refine ⟨by omega, h200, ?_⟩
      intro k hik hkn
      rcases Nat.eq_or_lt_of_le hik with rfl | hlt
      · exact hg
      · exact hall k hlt hkn

/-- The sequential phases of the prune variant's `main`, in program order:
start the daemon, wait for it, then (only when a registry health endpoint
is configured) wait for the health endpoint, then enter the scheduler
loop.  Pulls of listed container images are issued only inside the
`schedulerLoop` phase (the `go func` loop modelled by `iterationPrune`). -/
inductive Phase
  | startDaemon
  | waitDaemon
  | healthWait
  | schedulerLoop
deriving DecidableEq

/-- Program order of the prune variant's `main`. -/
def mainPhases (registryHealthEndpoint : String) : List Phase :=
  [.startDaemon, .waitDaemon] ++
    (if registryHealthEndpoint = "" then [] else [.healthWait]) ++ [.schedulerLoop]

/-- **C8, counterexample.** The claim that `waitForDockerDaemon` returns
only after observing that `/var/run/docker.sock` exists is false: a stat
outcome that is an error other than `IsNotExist` also ends the wait — here
the very first poll errs (e.g. permission denied) and the wait returns at
once without ever observing the socket. -/
theorem C8_counterexample :
    waitForDockerDaemon (fun _ => StatResult.otherErr) 1 = some (0, 0) ∧
    (fun _ => StatResult.otherErr) 0 ≠ StatResult.sockExists := by
  exact ⟨rfl, by intro h; cases h⟩

/-- **C8, amended.** Readiness gates the preheat loop: the scheduler loop
(the only phase issuing pulls of listed images) comes after
`waitForDockerDaemon` in program order; `waitForDockerDaemon` returns only
after a stat of `/var/run/docker.sock` whose outcome is not an
`IsNotExist` error (the socket existing, or any other stat failure),
polling once per second (1000 ms slept per failed poll); and in the prune
variant with a configured registry health endpoint, the health-wait phase
also precedes the loop and ends only when an HTTP GET was answered with
status 200. -/
theorem C8_amended_readiness_gates_loop :
    (∀ ep, ∃ pre, mainPhases ep = pre ++ [Phase.schedulerLoop] ∧
      Phase.waitDaemon ∈ pre ∧ Phase.schedulerLoop ∉ pre ∧
      (ep ≠ "" → Phase.healthWait ∈ pre)) ∧
    (∀ stat fuel n ms, waitForDockerDaemon stat fuel = some (n, ms) →
      stat n ≠ StatResult.notExist ∧
      (∀ k, k < n → stat k = StatResult.notExist) ∧ ms = 1000 * n) ∧
    (∀ get fuel n s, healthLoop get 0 fuel = some (n, s) → get n = some 200) := by
  refine ⟨?_, ?_, ?_⟩
  · intro ep
    refine ⟨[.startDaemon, .waitDaemon] ++ (if ep = "" then [] else [.healthWait]),
      by simp [mainPhases], ?_, ?_, ?_⟩
    · simp
    · by_cases h : ep = "" <;> simp [h]
    · intro h
      simp [h]
  · intro stat fuel n ms h
    obtain ⟨_, hne, hall, hms⟩ := waitLoop_spec stat fuel 0 n ms h
    exact ⟨hne, fun k hk => hall k (Nat.zero_le k) hk, by omega⟩
  · intro get fuel n s h
    exact (healthLoop_spec get fuel 0 n s h).2.1

/-- Witness for C8 (amended): a socket appearing at the third poll and a
health endpoint answering 200 at the second attempt. -/
theorem C8_amended_readiness_gates_loop_witness :
    ((fun k => if k < 2 then StatResult.notExist else StatResult.sockExists) 2 ≠
      StatResult.notExist) ∧
    ((fun k : Nat => if k = 0 then none else some 200) 1 = some 200) ∧
    (∃ pre, mainPhases "http://registry:5000/v2/" = pre ++ [Phase.schedulerLoop] ∧
      Phase.waitDaemon ∈ pre ∧ Phase.schedulerLoop ∉ pre ∧
      ("http://registry:5000/v2/" ≠ "" → Phase.healthWait ∈ pre)) := by
  refine ⟨?_, ?_, C8_amended_readiness_gates_loop.1 "http://registry:5000/v2/"⟩
  · exact (C8_amended_readiness_gates_loop.2.1
      (fun k => if k < 2 then StatResult.notExist else StatResult.sockExists)
      3 2 2000 (by decide)).1
  · exact C8_amended_readiness_gates_loop.2.2
      (fun k : Nat => if k = 0 then none else some 200) 2 1 1 (by decide)

/-- **C10.** `waitForDockerDaemon` treats any stat outcome other than an
`IsNotExist` error as readiness: it keeps polling exactly while the stat
yields `IsNotExist`, so a stat failure of any other kind (e.g. permission
denied) ends the wait and the program proceeds as if the daemon were
ready. -/
theorem C10_wait_stops_on_any_non_notexist (stat : Nat → StatResult)
    (fuel n ms : Nat) (h : waitForDockerDaemon stat fuel = some (n, ms)) :
    stat n ≠ StatResult.notExist ∧ (∀ k, k < n → stat k = StatResult.notExist) := by
  obtain ⟨_, hne, hall, _⟩ := waitLoop_spec stat fuel 0 n ms h
  exact ⟨hne, fun k hk => hall k (Nat.zero_le k) hk⟩

/-- Witness for C10: the first poll fails with something other than
`IsNotExist`, the second would see the socket, but the wait already ended
at poll 1 on the alien error. -/
theorem C10_wait_stops_on_any_non_notexist_witness :
    (fun k => if k = 0 then StatResult.notExist else StatResult.otherErr) 1 ≠
      StatResult.notExist ∧
    (∀ k, k < 1 →
      (fun k => if k = 0 then StatResult.notExist else StatResult.otherErr) k =
        StatResult.notExist) :=
  C10_wait_stops_on_any_non_notexist
    (fun k => if k = 0 then StatResult.notExist else StatResult.otherErr)
    3 1 1000 (by decide)
